import Mathlib

/-!
Shallow embedding of the Event Lifecycle & Registration/Ticketing Engine of
the Event Management System backend (src/backend/routes/event.js together
with the mongoose schemas in src/backend/models).  Dates are modelled as
integer timestamps in milliseconds; mongo documents become Lean structures;
each express route handler becomes a pure function from its inputs and the
relevant stored documents to an Except value: an error models the handler
returning an error response before any save, a success value carries the
documents as persisted after the handler ran.
-/

namespace EventSys

/-- Lifecycle status labels, from the statusOverride enum of eventSchema
(models/Event.js): Draft, Published, Ongoing, Completed, Closed. -/
inductive Status where
  | Draft
  | Published
  | Ongoing
  | Completed
  | Closed
deriving DecidableEq, Repr

/-- Event kind, from the type enum of eventSchema: normal or merchandise. -/
inductive EventType where
  | normal
  | merchandise
deriving DecidableEq, Repr

/-- Eligibility enum of eventSchema: iiit, non-iiit, all. -/
inductive Eligibility where
  | iiit
  | noniiit
  | all
deriving DecidableEq, Repr

/-- Participant category, from the participantType enum of userSchema. -/
inductive ParticipantType where
  | iiit
  | noniiit
deriving DecidableEq, Repr

/-- Payment status enum of registrationSchema: Not Applicable, Pending,
Approved, Rejected. -/
inductive PaymentStatus where
  | NotApplicable
  | Pending
  | Approved
  | Rejected
deriving DecidableEq, Repr

/-- Effective status resolver, translated from getEffectiveStatus in
src/backend/routes/event.js lines 18-25.  The JS function reads the clock
through new Date(); here now is an explicit argument, so the resolver is a
pure function of (statusOverride, startDate, endDate, now). -/
def getEffectiveStatus (statusOverride : Status) (startDate endDate now : Int) : Status :=
  if statusOverride = .Draft ∨ statusOverride = .Closed then statusOverride
  else if statusOverride = .Completed then .Completed
  else if now < startDate then .Published
  else if startDate ≤ now ∧ now ≤ endDate then .Ongoing
  else .Completed

/-- Case analysis that the specification states for the status resolver,
written from the words of the spec (section 4.1) so it can be compared with
getEffectiveStatus, which is translated from the source. -/
def specEffectiveStatus (statusOverride : Status) (startDate endDate now : Int) : Status :=
  match statusOverride with
  | .Draft => .Draft
  | .Closed => .Closed
  | .Completed => .Completed
  | _ =>
    if now < startDate then .Published
    else if startDate ≤ now ∧ now ≤ endDate then .Ongoing
    else .Completed

/-- Helper: on overrides other than Draft, Closed and Completed the resolver
reduces to the pure time comparison of the source. -/
theorem getEffectiveStatus_time (ov : Status) (h1 : ov ≠ .Draft) (h2 : ov ≠ .Closed)
    (h3 : ov ≠ .Completed) (s e now : Int) :
    getEffectiveStatus ov s e now =
      if now < s then .Published
      else if s ≤ now ∧ now ≤ e then .Ongoing
      else .Completed := by
  cases ov <;> simp_all [getEffectiveStatus]

/-- C1: the effective-status resolver is a pure function of
(statusOverride, startDate, endDate, now) equal to the case analysis of the
spec: Draft and Closed overrides are returned unchanged, a Completed
override yields Completed, and otherwise now before startDate yields
Published, now within [startDate, endDate] yields Ongoing, and now after
endDate yields Completed.  Draft and Closed are fixed under any change of
time and Completed never reverts as time advances. -/
theorem effectiveStatus_matches_spec_and_stable
    (ov : Status) (s e : Int) (hse : s ≤ e) :
    (∀ now, getEffectiveStatus ov s e now = specEffectiveStatus ov s e now)
    ∧ (∀ now, (ov = .Draft ∨ ov = .Closed) → getEffectiveStatus ov s e now = ov)
    ∧ (∀ now, ov = .Completed → getEffectiveStatus ov s e now = .Completed)
    ∧ (∀ now, ov ≠ .Draft → ov ≠ .Closed → ov ≠ .Completed →
        now < s → getEffectiveStatus ov s e now = .Published)
    ∧ (∀ now, ov ≠ .Draft → ov ≠ .Closed → ov ≠ .Completed →
        s ≤ now → now ≤ e → getEffectiveStatus ov s e now = .Ongoing)
    ∧ (∀ now, ov ≠ .Draft → ov ≠ .Closed → ov ≠ .Completed →
        e < now → getEffectiveStatus ov s e now = .Completed)
    ∧ (∀ t u, t ≤ u → getEffectiveStatus ov s e t = .Completed →
        getEffectiveStatus ov s e u = .Completed) := by
  refine ⟨?_, ?_, ?_, ?_, ?_, ?_, ?_⟩
  · intro now
    cases ov <;> simp [getEffectiveStatus, specEffectiveStatus]
  · intro now h
    rcases h with h | h <;> subst h <;> simp [getEffectiveStatus]
  · intro now h
    subst h
    simp [getEffectiveStatus]
  · intro now h1 h2 h3 hlt
    cases ov <;> simp_all [getEffectiveStatus]
  · intro now h1 h2 h3 hs he
    cases ov <;> simp_all [getEffectiveStatus]
  · intro now h1 h2 h3 hgt
    rw [getEffectiveStatus_time ov h1 h2 h3]
    split_ifs with hA hB
    · exfalso; omega
    · exfalso
      obtain ⟨hB1, hB2⟩ := hB
      omega
    · rfl
  · intro t u htu hc
    by_cases h1 : ov = .Draft
    · subst h1; simp [getEffectiveStatus] at hc
    by_cases h2 : ov = .Closed
    · subst h2; simp [getEffectiveStatus] at hc
    by_cases h3 : ov = .Completed
    · subst h3; simp [getEffectiveStatus]
    rw [getEffectiveStatus_time ov h1 h2 h3] at hc
    rw [getEffectiveStatus_time ov h1 h2 h3]
    split_ifs at hc with hA hB
    rw [not_lt] at hA
    rw [not_and_or, not_le, not_le] at hB
    split_ifs with hC hD
    · exfalso; omega
    · exfalso
      obtain ⟨hD1, hD2⟩ := hD
      omega
    · rfl

/-- Witness for C1 at concrete inputs: start 100, end 200, override
Published, time 250 resolves to Completed and the spec case analysis
agrees. -/
theorem effectiveStatus_matches_spec_and_stable_witness :
    (100 : Int) ≤ 200
    ∧ getEffectiveStatus .Published 100 200 250 = specEffectiveStatus .Published 100 200 250 := by
  refine ⟨by decide, ?_⟩
  exact (effectiveStatus_matches_spec_and_stable .Published 100 200 (by decide)).1 250

/-- Merchandise variant subdocument, from merchandiseVariantSchema in
models/Event.js: size, color, stock, price, with an own id (mongo gives
each subdocument an id; modelled as a Nat). -/
structure Variant where
  id : Nat
  size : String
  color : String
  stock : Int
  price : Int
deriving DecidableEq, Repr

/-- Event document, from eventSchema in models/Event.js, restricted to the
fields the route handlers under verification read or write.  Dates are
integer timestamps; registrationLimit has no default and is optional in the
schema, so it is an Option. -/
structure Event where
  id : Nat
  organizerId : Nat
  name : String
  description : String
  etype : EventType
  eligibility : Eligibility
  registrationDeadline : Int
  startDate : Int
  endDate : Int
  registrationLimit : Option Int
  statusOverride : Status
  registrationFee : Int
  isFormLocked : Bool
  merchandiseVariants : List Variant
  purchaseLimitPerUser : Int
  requiresPaymentApproval : Bool
deriving DecidableEq, Repr

/-- Registration document, from registrationSchema in models/Registration.js
(src/backend/models, Registration model).  ticketId is sparse-unique and
optional; quantity defaults to 1; attendance audit fields are optional. -/
structure Registration where
  id : Nat
  eventId : Nat
  participantId : Nat
  ticketId : Option String
  formData : List (String × String)
  variantId : Option Nat
  quantity : Int
  paymentProofUrl : Option String
  paymentStatus : PaymentStatus
  attended : Bool
  attendanceTimestamp : Option Int
  manualOverride : Bool
  overrideReason : Option String
  overriddenBy : Option Nat
deriving DecidableEq, Repr

/-- Error response of a route handler: HTTP status code and message, as in
res.status(code).json(message). -/
structure ApiErr where
  code : Nat
  msg : String
deriving DecidableEq, Repr

/-- Effective status of an event document at time now, as every handler
computes it by calling getEffectiveStatus(event). -/
def Event.effectiveStatus (ev : Event) (now : Int) : Status :=
  getEffectiveStatus ev.statusOverride ev.startDate ev.endDate now

/-- One field of an event-edit request body (req.body of PUT /:id).  Each
constructor carries the new value for one of the modelled event fields; the
constructor named otherField stands for any request field outside the
modelled set, identified by its key string. -/
inductive FieldUpdate where
  | description (v : String)
  | registrationDeadline (v : Int)
  | registrationLimit (v : Int)
  | statusOverride (v : Status)
  | isFormLocked (v : Bool)
  | name (v : String)
  | startDate (v : Int)
  | endDate (v : Int)
  | otherField (field : String)
deriving DecidableEq, Repr

/-- The JS object key of a request field, as enumerated by Object.keys. -/
def FieldUpdate.key : FieldUpdate → String
  | .description _ => "description"
  | .registrationDeadline _ => "registrationDeadline"
  | .registrationLimit _ => "registrationLimit"
  | .statusOverride _ => "statusOverride"
  | .isFormLocked _ => "isFormLocked"
  | .name _ => "name"
  | .startDate _ => "startDate"
  | .endDate _ => "endDate"
  | .otherField f => f

/-- Assignment of one request field onto the event document, as done by
Object.assign in the Draft branch and by the per-key assignment in the
Published branch of PUT /:id.  A field outside the modelled set leaves the
modelled fields unchanged. -/
def applyUpdate (ev : Event) : FieldUpdate → Event
  | .description v => { ev with description := v }
  | .registrationDeadline v => { ev with registrationDeadline := v }
  | .registrationLimit v => { ev with registrationLimit := some v }
  | .statusOverride v => { ev with statusOverride := v }
  | .isFormLocked v => { ev with isFormLocked := v }
  | .name v => { ev with name := v }
  | .startDate v => { ev with startDate := v }
  | .endDate v => { ev with endDate := v }
  | .otherField _ => ev

/-- The field whitelist of the Published branch of PUT /:id (event.js line
77). -/
def publishedAllowed : List String :=
  ["description", "registrationDeadline", "registrationLimit", "statusOverride"]

/-- The Published branch of PUT /:id (event.js lines 76-86): walk the request
keys in order; an unlisted key, a deadline earlier than the stored one, or a
registrationLimit below the stored one rejects the whole request (the route
returns before event.save()); otherwise each field is assigned in turn.  A
comparison with an absent stored registrationLimit is false in JS
(x < undefined), so it rejects nothing. -/
def publishedApply (ev : Event) : List FieldUpdate → Except ApiErr Event
  | [] => .ok ev
  | u :: rest =>
    if ¬ publishedAllowed.contains u.key then
      .error ⟨400, "Cannot edit " ++ u.key ++ " once published."⟩
    else
      match u with
      | .registrationDeadline v =>
        if v < ev.registrationDeadline then
          .error ⟨400, "Can only extend the deadline."⟩
        else publishedApply (applyUpdate ev u) rest
      | .registrationLimit v =>
        match ev.registrationLimit with
        | some old =>
          if v < old then
            .error ⟨400, "Can only increase the registration limit."⟩
          else publishedApply (applyUpdate ev u) rest
        | none => publishedApply (applyUpdate ev u) rest
      | _ => publishedApply (applyUpdate ev u) rest

/-- PUT /:id (event.js lines 54-109) after the organizer lookup, the event
lookup and the ownership check, all taken as given here: Draft applies every
request field through Object.assign; Published goes through the whitelist
walk; Ongoing and Completed require the request to consist of exactly the
statusOverride key; Closed matches no branch of the if chain, so the
handler falls through to event.save() with nothing assigned and responds
with success. -/
def updateEventHandler (ev : Event) (updates : List FieldUpdate) (now : Int) :
    Except ApiErr Event :=
  match ev.effectiveStatus now with
  | .Draft => .ok (updates.foldl applyUpdate ev)
  | .Published => publishedApply ev updates
  | .Ongoing | .Completed =>
    match updates with
    | [.statusOverride v] => .ok { ev with statusOverride := v }
    | _ => .error ⟨400, "Only status can be changed at this stage."⟩
  | .Closed => .ok ev

/-- The event document as stored after PUT /:id ran: on success the saved
document, on rejection the original, since every rejection returns before
event.save(). -/
def persistedAfterUpdate (ev : Event) (updates : List FieldUpdate) (now : Int) : Event :=
  match updateEventHandler ev updates now with
  | .ok e => e
  | .error _ => ev

/-- Display name of a status, used in response messages. -/
def statusName : Status → String
  | .Draft => "Draft"
  | .Published => "Published"
  | .Ongoing => "Ongoing"
  | .Completed => "Completed"
  | .Closed => "Closed"

/-- Storage-level insert of a Registration document under the unique
compound index on (eventId, participantId) declared by
registrationSchema.index in models/Registration.js line 133: an insert
whose (eventId, participantId) pair is already present fails with a
duplicate-key error, independent of any check the route made before the
insert. -/
def registrationCreate (regs : List Registration) (r : Registration) :
    Except ApiErr (List Registration) :=
  if regs.any (fun x => x.eventId == r.eventId && x.participantId == r.participantId) then
    .error ⟨500, "E11000 duplicate key error: eventId, participantId"⟩
  else .ok (regs ++ [r])

/-- Number of registrations stored for an event, as counted by
Registration.countDocuments with an eventId filter. -/
def eventRegCount (regs : List Registration) (eventId : Nat) : Nat :=
  (regs.filter (fun r => r.eventId == eventId)).length

/-- The capacity guard of POST /:id/register (event.js lines 272-277): the
count check runs only when event.registrationLimit is truthy in JS, that is
present and nonzero; an absent or zero limit checks nothing. -/
def capacityReached (limit : Option Int) (count : Nat) : Bool :=
  match limit with
  | none => false
  | some l => if l = 0 then false else decide ((count : Int) ≥ l)

/-- POST /:id/register (event.js lines 247-305), after the event and
participant lookups, taken as given: rejects merchandise events, closed
phases, a passed deadline, an eligibility mismatch, a reached capacity and
a duplicate registration, in that order; otherwise inserts a registration
holding a fresh ticket and locks the custom form.  The fresh ticket string
and the new document id are explicit arguments standing for
generateTicketId() and the id mongo assigns. -/
def registerHandler (ev : Event) (pt : ParticipantType) (pid : Nat)
    (formData : List (String × String)) (regs : List Registration)
    (now : Int) (freshTicket : String) (newRegId : Nat) :
    Except ApiErr (Event × List Registration × String) :=
  if ev.etype ≠ .normal then
    .error ⟨400, "Use /order for merchandise events."⟩
  else if ¬ (ev.effectiveStatus now = .Published ∨ ev.effectiveStatus now = .Ongoing) then
    .error ⟨400, "Registration not available (event is " ++ statusName (ev.effectiveStatus now) ++ ")."⟩
  else if now > ev.registrationDeadline then
    .error ⟨400, "Registration deadline has passed."⟩
  else if ev.eligibility = .iiit ∧ pt ≠ .iiit then
    .error ⟨403, "This event is for IIIT students only."⟩
  else if ev.eligibility = .noniiit ∧ pt ≠ .noniiit then
    .error ⟨403, "This event is for non-IIIT participants only."⟩
  else if capacityReached ev.registrationLimit (eventRegCount regs ev.id) then
    .error ⟨400, "Registration limit reached."⟩
  else if regs.any (fun r => r.eventId == ev.id && r.participantId == pid) then
    .error ⟨400, "Already registered."⟩
  else
    match registrationCreate regs
      { id := newRegId, eventId := ev.id, participantId := pid,
        ticketId := some freshTicket, formData := formData, variantId := none,
        quantity := 1, paymentProofUrl := none, paymentStatus := .NotApplicable,
        attended := false, attendanceTimestamp := none, manualOverride := false,
        overrideReason := none, overriddenBy := none } with
    | .error e => .error e
    | .ok regs2 =>
      let ev2 := if ev.isFormLocked then ev else { ev with isFormLocked := true }
      .ok (ev2, regs2, freshTicket)

/-- Registration document created by POST /:id/order: fields as passed to
Registration.create there, with the ticket and payment status of the taken
path. -/
def orderReg (newRegId eventId pid vid : Nat) (qty : Int)
    (ticketId : Option String) (ps : PaymentStatus) : Registration :=
  { id := newRegId, eventId := eventId, participantId := pid, ticketId := ticketId,
    formData := [], variantId := some vid, quantity := qty, paymentProofUrl := none,
    paymentStatus := ps, attended := false, attendanceTimestamp := none,
    manualOverride := false, overrideReason := none, overriddenBy := none }

/-- In-place decrement of the stock of the variant with the given id, as
variant.stock -= quantity mutates the subdocument before event.save(). -/
def decrementStock (l : List Variant) (vid : Nat) (d : Int) : List Variant :=
  l.map (fun v => if v.id == vid then { v with stock := v.stock - d } else v)

/-- POST /:id/order (event.js lines 308-388), after the event and
participant lookups, taken as given.  The request quantity is optional and
defaults to 1 as in the destructuring on line 333.  The approval path
creates a Pending registration without a ticket and does not touch stock;
the immediate path requires stock at least the quantity, decrements the
chosen variant and creates an Approved registration with a fresh ticket.
In the source the decremented event is saved just before the insert; the
insert cannot fail after the duplicate check in this sequential model, so
the saved event is carried in the success value. -/
def orderHandler (ev : Event) (pt : ParticipantType) (pid : Nat)
    (variantId : Option Nat) (quantity : Option Int) (regs : List Registration)
    (now : Int) (freshTicket : String) (newRegId : Nat) :
    Except ApiErr (Event × List Registration × Option String) :=
  if ev.etype ≠ .merchandise then
    .error ⟨400, "This endpoint is for merchandise events only."⟩
  else if ¬ (ev.effectiveStatus now = .Published ∨ ev.effectiveStatus now = .Ongoing) then
    .error ⟨400, "Orders not available (event is " ++ statusName (ev.effectiveStatus now) ++ ")."⟩
  else if now > ev.registrationDeadline then
    .error ⟨400, "Order deadline has passed."⟩
  else if ev.eligibility = .iiit ∧ pt ≠ .iiit then
    .error ⟨403, "This event is for IIIT students only."⟩
  else if ev.eligibility = .noniiit ∧ pt ≠ .noniiit then
    .error ⟨403, "This event is for non-IIIT participants only."⟩
  else
    match variantId with
    | none => .error ⟨400, "variantId is required."⟩
    | some vid =>
      match ev.merchandiseVariants.find? (fun v => v.id == vid) with
      | none => .error ⟨404, "Variant not found."⟩
      | some variant =>
        if (regs.filter (fun r => r.eventId == ev.id && r.participantId == pid)).foldl
            (fun sum r => sum + r.quantity) 0 + quantity.getD 1 > ev.purchaseLimitPerUser then
          .error ⟨400, "Purchase limit per user is " ++ toString ev.purchaseLimitPerUser ++ "."⟩
        else if regs.any (fun r => r.eventId == ev.id && r.participantId == pid) then
          .error ⟨400, "You already have an active order for this event."⟩
        else if ev.requiresPaymentApproval then
          match registrationCreate regs
            (orderReg newRegId ev.id pid vid (quantity.getD 1) none .Pending) with
          | .error e => .error e
          | .ok regs2 => .ok (ev, regs2, none)
        else if variant.stock < quantity.getD 1 then
          .error ⟨400, "Insufficient stock."⟩
        else
          match registrationCreate regs
            (orderReg newRegId ev.id pid vid (quantity.getD 1) (some freshTicket) .Approved) with
          | .error e => .error e
          | .ok regs2 =>
            .ok ({ ev with merchandiseVariants :=
              decrementStock ev.merchandiseVariants vid (quantity.getD 1) },
              regs2, some freshTicket)

/-- PUT /:id/orders/:regId/approve (event.js lines 461-500), after the
organizer, event and ownership checks, taken as given: the order must be
Pending, its variant must exist with stock at least the order quantity;
then the stock is decremented, the order becomes Approved and receives a
fresh ticket. -/
def approveHandler (ev : Event) (regs : List Registration) (regId : Nat)
    (freshTicket : String) :
    Except ApiErr (Event × List Registration × String) :=
  match regs.find? (fun r => r.id == regId && r.eventId == ev.id) with
  | none => .error ⟨404, "Order not found."⟩
  | some reg =>
    if reg.paymentStatus ≠ .Pending then
      .error ⟨400, "Only Pending orders can be approved."⟩
    else
      match reg.variantId with
      | none => .error ⟨400, "Insufficient stock to approve."⟩
      | some vid =>
        match ev.merchandiseVariants.find? (fun v => v.id == vid) with
        | none => .error ⟨400, "Insufficient stock to approve."⟩
        | some variant =>
          if variant.stock < reg.quantity then
            .error ⟨400, "Insufficient stock to approve."⟩
          else
            let ev2 := { ev with merchandiseVariants :=
              ev.merchandiseVariants.map (fun v =>
                if v.id == vid then { v with stock := v.stock - reg.quantity } else v) }
            let regs2 := regs.map (fun r =>
              if r.id == reg.id then
                { r with paymentStatus := .Approved, ticketId := some freshTicket }
              else r)
            .ok (ev2, regs2, freshTicket)

/-- PUT /:id/orders/:regId/reject (event.js lines 503-530), after the
organizer, event and ownership checks, taken as given: the order must be
Pending and becomes Rejected; stock and ticket are untouched. -/
def rejectHandler (ev : Event) (regs : List Registration) (regId : Nat) :
    Except ApiErr (List Registration) :=
  match regs.find? (fun r => r.id == regId && r.eventId == ev.id) with
  | none => .error ⟨404, "Order not found."⟩
  | some reg =>
    if reg.paymentStatus ≠ .Pending then
      .error ⟨400, "Only Pending orders can be rejected."⟩
    else
      .ok (regs.map (fun r =>
        if r.id == reg.id then { r with paymentStatus := .Rejected } else r))

/-- Outcome of a successful scan response: first scan marks attendance with
a fresh timestamp (HTTP 200); a repeat scan is answered with the duplicate
notice of event.js lines 663-669 (HTTP 409) carrying the stored original
timestamp and changing nothing. -/
inductive ScanOutcome where
  | marked (attendanceTimestamp : Int)
  | duplicateScan (alreadyScannedAt : Option Int)
deriving DecidableEq, Repr

/-- POST /:id/scan (event.js lines 640-689), after the organizer, event and
ownership checks, taken as given: an empty ticket string is falsy in JS and
rejected as missing; the registration is looked up by ticket id and must
belong to the scanned event; an already attended registration is reported
as a duplicate scan with the original timestamp and not modified; otherwise
attendance is set with timestamp now. -/
def scanHandler (ev : Event) (regs : List Registration) (tid : String) (now : Int) :
    Except ApiErr (List Registration × ScanOutcome) :=
  if tid = "" then .error ⟨400, "ticketId is required."⟩
  else
    match regs.find? (fun r => r.ticketId == some tid) with
    | none => .error ⟨404, "Ticket not found."⟩
    | some reg =>
      if reg.eventId ≠ ev.id then
        .error ⟨400, "This ticket belongs to a different event."⟩
      else if reg.attended then
        .ok (regs, .duplicateScan reg.attendanceTimestamp)
      else
        .ok (regs.map (fun r =>
          if r.id == reg.id then
            { r with attended := true, attendanceTimestamp := some now }
          else r), .marked now)

/-- PUT /:id/attendance/:regId/override (event.js lines 738-771), after the
organizer, event and ownership checks, taken as given: an empty reason
string is falsy in JS and rejected; otherwise the attended flag is set
unconditionally, the timestamp is set fresh or cleared, and the audit
fields are stamped. -/
def manualOverrideHandler (ev : Event) (regs : List Registration) (regId : Nat)
    (attendedArg : Bool) (reason : String) (actorId : Nat) (now : Int) :
    Except ApiErr (List Registration) :=
  if reason = "" then
    .error ⟨400, "attended (boolean) and reason are required."⟩
  else
    match regs.find? (fun r => r.id == regId && r.eventId == ev.id) with
    | none => .error ⟨404, "Registration not found."⟩
    | some reg =>
      .ok (regs.map (fun r =>
        if r.id == reg.id then
          { r with attended := attendedArg,
                   attendanceTimestamp := if attendedArg then some now else none,
                   manualOverride := true,
                   overrideReason := some reason,
                   overriddenBy := some actorId }
        else r))

/-- One call against the event and its registrations: each constructor
carries the request inputs of the corresponding route handler. -/
inductive Op where
  | editEvent (updates : List FieldUpdate) (now : Int)
  | register (pid : Nat) (pt : ParticipantType) (formData : List (String × String))
      (now : Int) (freshTicket : String) (newRegId : Nat)
  | placeOrder (pid : Nat) (pt : ParticipantType) (variantId : Option Nat)
      (quantity : Option Int) (now : Int) (freshTicket : String) (newRegId : Nat)
  | approveOrder (regId : Nat) (freshTicket : String)
  | rejectOrder (regId : Nat)
  | scanTicket (tid : String) (now : Int)
  | overrideAttendance (regId : Nat) (attendedArg : Bool) (reason : String)
      (actorId : Nat) (now : Int)
deriving Repr

/-- Stored state: one event document and the registration collection. -/
structure SysState where
  ev : Event
  regs : List Registration
deriving DecidableEq, Repr

/-- Applying one call to the stored state: a rejected call persists
nothing, a successful call persists the documents the handler saved. -/
def step (s : SysState) (op : Op) : SysState :=
  match op with
  | .editEvent updates now =>
    match updateEventHandler s.ev updates now with
    | .ok e => ⟨e, s.regs⟩
    | .error _ => s
  | .register pid pt formData now t rid =>
    match registerHandler s.ev pt pid formData s.regs now t rid with
    | .ok (e, rs, _) => ⟨e, rs⟩
    | .error _ => s
  | .placeOrder pid pt vid qty now t rid =>
    match orderHandler s.ev pt pid vid qty s.regs now t rid with
    | .ok (e, rs, _) => ⟨e, rs⟩
    | .error _ => s
  | .approveOrder regId t =>
    match approveHandler s.ev s.regs regId t with
    | .ok (e, rs, _) => ⟨e, rs⟩
    | .error _ => s
  | .rejectOrder regId =>
    match rejectHandler s.ev s.regs regId with
    | .ok rs => ⟨s.ev, rs⟩
    | .error _ => s
  | .scanTicket tid now =>
    match scanHandler s.ev s.regs tid now with
    | .ok (rs, _) => ⟨s.ev, rs⟩
    | .error _ => s
  | .overrideAttendance regId a reason actor now =>
    match manualOverrideHandler s.ev s.regs regId a reason actor now with
    | .ok rs => ⟨s.ev, rs⟩
    | .error _ => s

/-- A sequence of calls applied in order. -/
def runOps (s : SysState) (ops : List Op) : SysState := ops.foldl step s

/-- Sample normal event with no registration limit, owned by organizer 10,
deadline 50, running from 100 to 200, override Published. -/
def normalEv : Event :=
  { id := 1, organizerId := 10, name := "TechFest", description := "d",
    etype := .normal, eligibility := .all, registrationDeadline := 50,
    startDate := 100, endDate := 200, registrationLimit := none,
    statusOverride := .Published, registrationFee := 0, isFormLocked := false,
    merchandiseVariants := [], purchaseLimitPerUser := 1,
    requiresPaymentApproval := false }

/-- Sample normal event with registration limit 1. -/
def limitedEv : Event :=
  { normalEv with id := 3, registrationLimit := some 1 }

/-- Sample closed event: statusOverride Closed. -/
def closedEv : Event :=
  { normalEv with id := 4, statusOverride := .Closed }

/-- Sample merchandise event with one variant of stock 5 and no payment
approval requirement. -/
def merchEv : Event :=
  { id := 2, organizerId := 10, name := "Merch", description := "d",
    etype := .merchandise, eligibility := .all, registrationDeadline := 50,
    startDate := 100, endDate := 200, registrationLimit := none,
    statusOverride := .Published, registrationFee := 0, isFormLocked := false,
    merchandiseVariants := [{ id := 1, size := "M", color := "black", stock := 5, price := 100 }],
    purchaseLimitPerUser := 10, requiresPaymentApproval := false }

/-- Sample registration of participant 99 against event 3. -/
def regOfP99 : Registration :=
  { id := 50, eventId := 3, participantId := 99, ticketId := some "TKT-99",
    formData := [], variantId := none, quantity := 1, paymentProofUrl := none,
    paymentStatus := .NotApplicable, attended := false,
    attendanceTimestamp := none, manualOverride := false,
    overrideReason := none, overriddenBy := none }

/-- C6 counterexample: an edit of a Closed event by its owner does not fail;
the handler matches no branch of the status chain, saves nothing and
responds with success, so the claim that every edit of a Closed event fails
with an error is false on this input. -/
theorem closed_event_edit_succeeds_counterexample :
    closedEv.effectiveStatus 0 = .Closed
    ∧ updateEventHandler closedEv [.description "changed"] 0 = .ok closedEv := by
  exact ⟨rfl, rfl⟩

/-- C6 amended: for every event whose effective status is Closed, an edit
request by its owner applies none of the requested fields and returns
success with the stored event unchanged: a silent no-op, not an error. -/
theorem closed_event_edit_is_silent_noop
    (ev : Event) (updates : List FieldUpdate) (now : Int)
    (h : ev.effectiveStatus now = .Closed) :
    updateEventHandler ev updates now = .ok ev
    ∧ persistedAfterUpdate ev updates now = ev := by
  have hh : updateEventHandler ev updates now = .ok ev := by
    unfold updateEventHandler
    rw [h]
  exact ⟨hh, by unfold persistedAfterUpdate; rw [hh]⟩

/-- Witness for the C6 amended theorem at the sample closed event. -/
theorem closed_event_edit_is_silent_noop_witness :
    updateEventHandler closedEv [.name "x"] 0 = .ok closedEv
    ∧ persistedAfterUpdate closedEv [.name "x"] 0 = closedEv :=
  closed_event_edit_is_silent_noop closedEv [.name "x"] 0 rfl

/-- C7: scanning a ticket of the correct event is idempotent: a scan of an
already attended registration changes nothing and reports a duplicate scan
carrying the stored original timestamp, and this repeats for any further
sequence of scans of that ticket; the first scan of a not yet attended
registration sets attended with timestamp now and reports attendance
marked. -/
theorem scan_duplicate_and_first_mark
    (ev : Event) (regs : List Registration) (tid : String) (now : Int)
    (reg : Registration)
    (htid : tid ≠ "")
    (hfind : regs.find? (fun r => r.ticketId == some tid) = some reg)
    (hev : reg.eventId = ev.id) :
    (reg.attended = true →
      scanHandler ev regs tid now = .ok (regs, .duplicateScan reg.attendanceTimestamp)
      ∧ step ⟨ev, regs⟩ (.scanTicket tid now) = ⟨ev, regs⟩)
    ∧ (reg.attended = false →
      scanHandler ev regs tid now =
        .ok (regs.map (fun r =>
          if r.id == reg.id then
            { r with attended := true, attendanceTimestamp := some now }
          else r), .marked now))
    ∧ (reg.attended = true →
      ∀ ops : List Op, (∀ op ∈ ops, ∃ t2, op = Op.scanTicket tid t2) →
        runOps ⟨ev, regs⟩ ops = ⟨ev, regs⟩) := by
  have hne : ¬ (reg.eventId ≠ ev.id) := by simp [hev]
  have hdupAt : ∀ t2 : Int, reg.attended = true →
      scanHandler ev regs tid t2 = .ok (regs, .duplicateScan reg.attendanceTimestamp) := by
    intro t2 ha
    simp [scanHandler, if_neg htid, hfind, hne, ha]
  have hstep : ∀ t2 : Int, reg.attended = true →
      step ⟨ev, regs⟩ (.scanTicket tid t2) = ⟨ev, regs⟩ := by
    intro t2 ha
    simp only [step]
    rw [hdupAt t2 ha]
  refine ⟨fun ha => ⟨hdupAt now ha, hstep now ha⟩, ?_, ?_⟩
  · intro ha
    simp [scanHandler, if_neg htid, hfind, hne, ha]
  · intro ha ops hops
    induction ops with
    | nil => rfl
    | cons op rest ih =>
      obtain ⟨t2, rfl⟩ := hops op (List.mem_cons_self op rest)
      have h1 : step ⟨ev, regs⟩ (Op.scanTicket tid t2) = ⟨ev, regs⟩ := hstep t2 ha
      calc runOps ⟨ev, regs⟩ (Op.scanTicket tid t2 :: rest)
          = runOps (step ⟨ev, regs⟩ (Op.scanTicket tid t2)) rest := rfl
        _ = runOps ⟨ev, regs⟩ rest := by rw [h1]
        _ = ⟨ev, regs⟩ := ih (fun op hop => hops op (List.mem_cons_of_mem _ hop))

/-- Witness for C7: an attended sample registration scanned again reports a
duplicate with the original timestamp and an unattended one is marked. -/
theorem scan_duplicate_and_first_mark_witness :
    scanHandler { normalEv with id := 3 }
        [{ regOfP99 with attended := true, attendanceTimestamp := some 42 }]
        "TKT-99" 77 =
      .ok ([{ regOfP99 with attended := true, attendanceTimestamp := some 42 }],
        .duplicateScan (some 42)) := by
  have h := (scan_duplicate_and_first_mark { normalEv with id := 3 }
    [{ regOfP99 with attended := true, attendanceTimestamp := some 42 }]
    "TKT-99" 77 { regOfP99 with attended := true, attendanceTimestamp := some 42 }
    (by decide) (by decide) (by decide)).1 rfl
  exact h.1

/-- C9: evaluation of the order route at a quantity of 0 and at a quantity
of -3 on the sample merchandise event with stock 5.  The route has no check
that the quantity is at least 1: the quantity 0 order is accepted and
creates a registration with quantity 0 and a ticket, and the quantity -3
order is accepted, creates a registration with quantity -3 and raises the
variant stock from 5 to 8. -/
theorem order_accepts_nonpositive_quantity :
    orderHandler merchEv .iiit 7 (some 1) (some 0) [] 5 "TKT-A" 1 =
      .ok (merchEv,
        [{ id := 1, eventId := 2, participantId := 7, ticketId := some "TKT-A",
           formData := [], variantId := some 1, quantity := 0,
           paymentProofUrl := none, paymentStatus := .Approved,
           attended := false, attendanceTimestamp := none,
           manualOverride := false, overrideReason := none, overriddenBy := none }],
        some "TKT-A")
    ∧ orderHandler merchEv .iiit 7 (some 1) (some (-3)) [] 5 "TKT-B" 1 =
      .ok ({ merchEv with merchandiseVariants :=
              [{ id := 1, size := "M", color := "black", stock := 8, price := 100 }] },
        [{ id := 1, eventId := 2, participantId := 7, ticketId := some "TKT-B",
           formData := [], variantId := some 1, quantity := -3,
           paymentProofUrl := none, paymentStatus := .Approved,
           attended := false, attendanceTimestamp := none,
           manualOverride := false, overrideReason := none, overriddenBy := none }],
        some "TKT-B") := by
  exact ⟨rfl, rfl⟩

/-- C10: the capacity guard of normal-event registration runs only when the
stored registrationLimit is present and nonzero.  First part: with an
absent or zero limit, a registration passing the other guards is accepted
whatever the current registration count.  Second part: with a nonzero limit
of l and a count at least l, the request is rejected with the capacity
error. -/
theorem register_capacity_only_when_limit_nonzero :
    (∀ (ev : Event) (pt : ParticipantType) (pid : Nat) (fd : List (String × String))
       (regs : List Registration) (now : Int) (t : String) (rid : Nat),
      ev.etype = .normal →
      (ev.effectiveStatus now = .Published ∨ ev.effectiveStatus now = .Ongoing) →
      now ≤ ev.registrationDeadline →
      (ev.eligibility = .iiit → pt = .iiit) →
      (ev.eligibility = .noniiit → pt = .noniiit) →
      (ev.registrationLimit = none ∨ ev.registrationLimit = some 0) →
      regs.any (fun r => r.eventId == ev.id && r.participantId == pid) = false →
      ∃ out, registerHandler ev pt pid fd regs now t rid = .ok out)
    ∧ (∀ (ev : Event) (pt : ParticipantType) (pid : Nat) (fd : List (String × String))
       (regs : List Registration) (now : Int) (t : String) (rid : Nat) (l : Int),
      ev.etype = .normal →
      (ev.effectiveStatus now = .Published ∨ ev.effectiveStatus now = .Ongoing) →
      now ≤ ev.registrationDeadline →
      (ev.eligibility = .iiit → pt = .iiit) →
      (ev.eligibility = .noniiit → pt = .noniiit) →
      ev.registrationLimit = some l → l ≠ 0 →
      l ≤ (eventRegCount regs ev.id : Int) →
      registerHandler ev pt pid fd regs now t rid =
        .error ⟨400, "Registration limit reached."⟩) := by
  constructor
  · intro ev pt pid fd regs now t rid hty hst hdl he1 he2 hlim hdup
    have hcap : capacityReached ev.registrationLimit (eventRegCount regs ev.id) = false := by
      rcases hlim with h | h <;> rw [h] <;> simp [capacityReached]
    unfold registerHandler
    rw [if_neg (by simp [hty]), if_neg (by simp [hst]), if_neg (by omega),
      if_neg (by rintro ⟨h1, h2⟩; exact h2 (he1 h1)),
      if_neg (by rintro ⟨h1, h2⟩; exact h2 (he2 h1)),
      if_neg (by simp [hcap]), if_neg (by simp [hdup])]
    unfold registrationCreate
    rw [if_neg (by simp [hdup])]
    exact ⟨_, rfl⟩
  · intro ev pt pid fd regs now t rid l hty hst hdl he1 he2 hlim hnz hcnt
    have hcap : capacityReached ev.registrationLimit (eventRegCount regs ev.id) = true := by
      rw [hlim]
      simp [capacityReached, hnz]
      omega
    unfold registerHandler
    rw [if_neg (by simp [hty]), if_neg (by simp [hst]), if_neg (by omega),
      if_neg (by rintro ⟨h1, h2⟩; exact h2 (he1 h1)),
      if_neg (by rintro ⟨h1, h2⟩; exact h2 (he2 h1)),
      if_pos (by simp [hcap])]

/-- Witness for C10: event with limit 0 accepts a registration although a
registration already exists, and the event with limit 1 rejects once one
registration is stored. -/
theorem register_capacity_only_when_limit_nonzero_witness :
    (∃ out, registerHandler { normalEv with registrationLimit := some 0 } .iiit 7 []
      [{ regOfP99 with eventId := 1 }] 10 "TKT-1" 60 = .ok out)
    ∧ registerHandler limitedEv .iiit 7 [] [regOfP99] 10 "TKT-2" 61 =
        .error ⟨400, "Registration limit reached."⟩ := by
  constructor
  · exact register_capacity_only_when_limit_nonzero.1
      { normalEv with registrationLimit := some 0 } .iiit 7 []
      [{ regOfP99 with eventId := 1 }] 10 "TKT-1" 60
      rfl (Or.inl rfl) (by decide) (fun h => by cases h) (fun h => by cases h)
      (Or.inr rfl) (by decide)
  · exact register_capacity_only_when_limit_nonzero.2
      limitedEv .iiit 7 [] [regOfP99] 10 "TKT-2" 61 1
      rfl (Or.inl rfl) (by decide) (fun h => by cases h) (fun h => by cases h)
      rfl (by decide) (by decide)

/-- Helper: decrementing the stock of the variant with a given id leaves
lookup by that id pointing at the same variant with the decremented
stock. -/
theorem find?_decrement (l : List Variant) (vid : Nat) (variant : Variant) (d : Int)
    (h : l.find? (fun v => v.id == vid) = some variant) :
    (l.map (fun v => if v.id == vid then { v with stock := v.stock - d } else v)).find?
        (fun v => v.id == vid) = some { variant with stock := variant.stock - d } := by
  induction l with
  | nil => simp at h
  | cons a as ih =>
    cases ha : (a.id == vid) with
    | true =>
      have ha2 : a.id = vid := by simpa using ha
      simp only [List.find?_cons, ha] at h
      injection h with h
      subst h
      simp [List.find?_cons, ha2, -List.find?_map]
    | false =>
      have ha2 : ¬ a.id = vid := by simpa using ha
      simp only [List.find?_cons, ha] at h
      simpa [List.find?_cons, ha2, -List.find?_map] using ih h

/-- C3: a merchandise order that passes the phase, deadline, eligibility,
variant, purchase-limit and duplicate guards behaves as follows.  On an
event requiring payment approval, placement creates a Pending registration
with no ticket and the event, thus the stock, is unchanged.  Otherwise,
stock below the requested quantity rejects with the insufficient-stock
error and persists nothing, and stock at least the quantity succeeds,
lowers the stock of the chosen variant by exactly the quantity and creates
an Approved registration carrying the fresh ticket. -/
theorem order_stock_and_approval_paths
    (ev : Event) (pt : ParticipantType) (pid vid : Nat) (q : Int)
    (regs : List Registration) (now : Int) (t : String) (rid : Nat) (variant : Variant)
    (hty : ev.etype = .merchandise)
    (hst : ev.effectiveStatus now = .Published ∨ ev.effectiveStatus now = .Ongoing)
    (hdl : now ≤ ev.registrationDeadline)
    (he1 : ev.eligibility = .iiit → pt = .iiit)
    (he2 : ev.eligibility = .noniiit → pt = .noniiit)
    (hvar : ev.merchandiseVariants.find? (fun v => v.id == vid) = some variant)
    (hpl : (regs.filter (fun r => r.eventId == ev.id && r.participantId == pid)).foldl
        (fun sum r => sum + r.quantity) 0 + q ≤ ev.purchaseLimitPerUser)
    (hdup : regs.any (fun r => r.eventId == ev.id && r.participantId == pid) = false) :
    (ev.requiresPaymentApproval = true →
      orderHandler ev pt pid (some vid) (some q) regs now t rid =
        .ok (ev, regs ++
          [{ id := rid, eventId := ev.id, participantId := pid,
             ticketId := none, formData := [], variantId := some vid,
             quantity := q, paymentProofUrl := none, paymentStatus := .Pending,
             attended := false, attendanceTimestamp := none, manualOverride := false,
             overrideReason := none, overriddenBy := none }], none))
    ∧ (ev.requiresPaymentApproval = false → variant.stock < q →
      orderHandler ev pt pid (some vid) (some q) regs now t rid =
        .error ⟨400, "Insufficient stock."⟩
      ∧ step ⟨ev, regs⟩ (.placeOrder pid pt (some vid) (some q) now t rid) = ⟨ev, regs⟩)
    ∧ (ev.requiresPaymentApproval = false → q ≤ variant.stock →
      orderHandler ev pt pid (some vid) (some q) regs now t rid =
        .ok ({ ev with merchandiseVariants := ev.merchandiseVariants.map (fun v =>
                if v.id == vid then { v with stock := v.stock - q } else v) },
          regs ++
          [{ id := rid, eventId := ev.id, participantId := pid,
             ticketId := some t, formData := [], variantId := some vid,
             quantity := q, paymentProofUrl := none, paymentStatus := .Approved,
             attended := false, attendanceTimestamp := none, manualOverride := false,
             overrideReason := none, overriddenBy := none }], some t)
      ∧ (ev.merchandiseVariants.map (fun v =>
            if v.id == vid then { v with stock := v.stock - q } else v)).find?
          (fun v => v.id == vid) = some { variant with stock := variant.stock - q }) := by
  have hbase : ∀ rest : Except ApiErr (Event × List Registration × Option String),
      True := fun _ => trivial
  refine ⟨?_, ?_, ?_⟩
  · intro happr
    unfold orderHandler
    rw [if_neg (by simp [hty]), if_neg (by simp [hst]), if_neg (by omega),
      if_neg (by rintro ⟨h1, h2⟩; exact h2 (he1 h1)),
      if_neg (by rintro ⟨h1, h2⟩; exact h2 (he2 h1))]
    simp only [Option.getD_some, hvar]
    rw [if_neg (not_lt.mpr hpl), if_neg (by simp [hdup]), if_pos happr]
    unfold registrationCreate
    rw [if_neg (by simp [orderReg, hdup])]
    rfl
  · intro happr hq
    have hmain : orderHandler ev pt pid (some vid) (some q) regs now t rid =
        .error ⟨400, "Insufficient stock."⟩ := by
      unfold orderHandler
      rw [if_neg (by simp [hty]), if_neg (by simp [hst]), if_neg (by omega),
        if_neg (by rintro ⟨h1, h2⟩; exact h2 (he1 h1)),
        if_neg (by rintro ⟨h1, h2⟩; exact h2 (he2 h1))]
      simp only [Option.getD_some, hvar]
      rw [if_neg (not_lt.mpr hpl), if_neg (by simp [hdup]), if_neg (by simp [happr]),
        if_pos hq]
    refine ⟨hmain, ?_⟩
    simp only [step]
    rw [hmain]
  · intro happr hq
    refine ⟨?_, find?_decrement _ _ _ _ hvar⟩
    unfold orderHandler
    rw [if_neg (by simp [hty]), if_neg (by simp [hst]), if_neg (by omega),
      if_neg (by rintro ⟨h1, h2⟩; exact h2 (he1 h1)),
      if_neg (by rintro ⟨h1, h2⟩; exact h2 (he2 h1))]
    simp only [Option.getD_some, hvar]
    rw [if_neg (not_lt.mpr hpl), if_neg (by simp [hdup]), if_neg (by simp [happr]),
      if_neg (not_lt.mpr hq)]
    unfold registrationCreate
    rw [if_neg (by simp [orderReg, hdup])]
    rfl

/-- Witness for C3: ordering quantity 2 of the stock-5 variant of the
sample merchandise event succeeds and leaves the variant with stock 3. -/
theorem order_stock_and_approval_paths_witness :
    orderHandler merchEv .iiit 7 (some 1) (some 2) [] 5 "TKT-C" 1 =
      .ok ({ merchEv with merchandiseVariants := merchEv.merchandiseVariants.map (fun v =>
              if v.id == 1 then { v with stock := v.stock - 2 } else v) },
        [] ++
        [{ id := 1, eventId := merchEv.id, participantId := 7,
           ticketId := some "TKT-C", formData := [], variantId := some 1,
           quantity := 2, paymentProofUrl := none, paymentStatus := .Approved,
           attended := false, attendanceTimestamp := none, manualOverride := false,
           overrideReason := none, overriddenBy := none }], some "TKT-C") :=
  ((order_stock_and_approval_paths merchEv .iiit 7 1 2 [] 5 "TKT-C" 1
    { id := 1, size := "M", color := "black", stock := 5, price := 100 }
    rfl (Or.inl rfl) (by decide) (fun h => by cases h) (fun h => by cases h)
    (by decide) (by decide) rfl).2.2 rfl (by decide)).1

/-- C4: approval of a merchandise order succeeds exactly when the order is
Pending and its variant exists with stock at least the order quantity; on
success the stock drops by the quantity, the order becomes Approved and
carries the fresh ticket; insufficient stock rejects with the inventory
error and persists nothing, leaving the order Pending; approving or
rejecting an order already Approved or Rejected fails with the state error
and changes nothing. -/
theorem approve_iff_pending_and_stock
    (ev : Event) (regs : List Registration) (regId : Nat) (t : String)
    (reg : Registration)
    (hfind : regs.find? (fun r => r.id == regId && r.eventId == ev.id) = some reg) :
    ((∃ out, approveHandler ev regs regId t = .ok out) ↔
      (reg.paymentStatus = .Pending ∧ ∃ vid variant, reg.variantId = some vid
        ∧ ev.merchandiseVariants.find? (fun v => v.id == vid) = some variant
        ∧ reg.quantity ≤ variant.stock))
    ∧ (∀ vid variant, reg.paymentStatus = .Pending → reg.variantId = some vid →
        ev.merchandiseVariants.find? (fun v => v.id == vid) = some variant →
        reg.quantity ≤ variant.stock →
        approveHandler ev regs regId t = .ok
          ({ ev with merchandiseVariants := ev.merchandiseVariants.map (fun v =>
              if v.id == vid then { v with stock := v.stock - reg.quantity } else v) },
            regs.map (fun r => if r.id == reg.id then
              { r with paymentStatus := .Approved, ticketId := some t } else r), t)
        ∧ (ev.merchandiseVariants.map (fun v =>
            if v.id == vid then { v with stock := v.stock - reg.quantity } else v)).find?
            (fun v => v.id == vid) = some { variant with stock := variant.stock - reg.quantity })
    ∧ (∀ vid variant, reg.paymentStatus = .Pending → reg.variantId = some vid →
        ev.merchandiseVariants.find? (fun v => v.id == vid) = some variant →
        variant.stock < reg.quantity →
        approveHandler ev regs regId t = .error ⟨400, "Insufficient stock to approve."⟩
        ∧ step ⟨ev, regs⟩ (.approveOrder regId t) = ⟨ev, regs⟩)
    ∧ (reg.paymentStatus = .Approved ∨ reg.paymentStatus = .Rejected →
        approveHandler ev regs regId t = .error ⟨400, "Only Pending orders can be approved."⟩
        ∧ rejectHandler ev regs regId = .error ⟨400, "Only Pending orders can be rejected."⟩
        ∧ step ⟨ev, regs⟩ (.approveOrder regId t) = ⟨ev, regs⟩
        ∧ step ⟨ev, regs⟩ (.rejectOrder regId) = ⟨ev, regs⟩) := by
  have happlySucc : ∀ vid variant, reg.paymentStatus = .Pending → reg.variantId = some vid →
      ev.merchandiseVariants.find? (fun v => v.id == vid) = some variant →
      reg.quantity ≤ variant.stock →
      approveHandler ev regs regId t = .ok
        ({ ev with merchandiseVariants := ev.merchandiseVariants.map (fun v =>
            if v.id == vid then { v with stock := v.stock - reg.quantity } else v) },
          regs.map (fun r => if r.id == reg.id then
            { r with paymentStatus := .Approved, ticketId := some t } else r), t) := by
    intro vid variant hp hv hf hq
    unfold approveHandler
    rw [hfind]
    simp only [hp, hv, hf]
    rw [if_neg (by simp), if_neg (not_lt.mpr hq)]
  refine ⟨⟨?_, ?_⟩, ?_, ?_, ?_⟩
  · intro ⟨out, hout⟩
    simp only [approveHandler, hfind] at hout
    by_cases hp : reg.paymentStatus = .Pending
    case neg => rw [if_pos hp] at hout; cases hout
    rw [if_neg (by simp [hp])] at hout
    refine ⟨hp, ?_⟩
    cases hv : reg.variantId with
    | none => simp only [hv] at hout; cases hout
    | some vid =>
      simp only [hv] at hout
      cases hf : ev.merchandiseVariants.find? (fun v => v.id == vid) with
      | none => simp only [hf] at hout; cases hout
      | some variant =>
        simp only [hf] at hout
        by_cases hq : variant.stock < reg.quantity
        · rw [if_pos hq] at hout; cases hout
        · exact ⟨vid, variant, rfl, hf, not_lt.mp hq⟩
  · intro ⟨hp, vid, variant, hv, hf, hq⟩
    exact ⟨_, happlySucc vid variant hp hv hf hq⟩
  · intro vid variant hp hv hf hq
    exact ⟨happlySucc vid variant hp hv hf hq,
      find?_decrement _ _ _ _ hf⟩
  · intro vid variant hp hv hf hq
    have hmain : approveHandler ev regs regId t =
        .error ⟨400, "Insufficient stock to approve."⟩ := by
      unfold approveHandler
      rw [hfind]
      simp only [hp, hv, hf]
      rw [if_neg (by simp), if_pos hq]
    refine ⟨hmain, ?_⟩
    simp only [step]
    rw [hmain]
  · intro hp
    have hnp : reg.paymentStatus ≠ .Pending := by
      rcases hp with h | h <;> rw [h] <;> simp
    have hmain : approveHandler ev regs regId t =
        .error ⟨400, "Only Pending orders can be approved."⟩ := by
      simp only [approveHandler, hfind]
      rw [if_pos hnp]
    have hmain2 : rejectHandler ev regs regId =
        .error ⟨400, "Only Pending orders can be rejected."⟩ := by
      simp only [rejectHandler, hfind]
      rw [if_pos hnp]
    refine ⟨hmain, hmain2, ?_, ?_⟩
    · simp only [step]
      rw [hmain]
    · simp only [step]
      rw [hmain2]

/-- Witness for C4 at a concrete Pending order of quantity 2 against the
stock-5 variant of the sample merchandise event: approval succeeds. -/
theorem approve_iff_pending_and_stock_witness :
    ∃ out, approveHandler { merchEv with requiresPaymentApproval := true }
      [{ id := 9, eventId := 2, participantId := 7, ticketId := none,
         formData := [], variantId := some 1, quantity := 2,
         paymentProofUrl := none, paymentStatus := .Pending, attended := false,
         attendanceTimestamp := none, manualOverride := false,
         overrideReason := none, overriddenBy := none }] 9 "TKT-D" = .ok out :=
  (approve_iff_pending_and_stock { merchEv with requiresPaymentApproval := true }
    [{ id := 9, eventId := 2, participantId := 7, ticketId := none,
       formData := [], variantId := some 1, quantity := 2,
       paymentProofUrl := none, paymentStatus := .Pending, attended := false,
       attendanceTimestamp := none, manualOverride := false,
       overrideReason := none, overriddenBy := none }] 9 "TKT-D"
    { id := 9, eventId := 2, participantId := 7, ticketId := none,
      formData := [], variantId := some 1, quantity := 2,
      paymentProofUrl := none, paymentStatus := .Pending, attended := false,
      attendanceTimestamp := none, manualOverride := false,
      overrideReason := none, overriddenBy := none }
    (by decide)).1.mpr
    ⟨rfl, 1, { id := 1, size := "M", color := "black", stock := 5, price := 100 },
      rfl, by decide, by decide⟩

/-- Helper: a field assignment whose key is not registrationDeadline leaves
the stored deadline unchanged. -/
theorem applyUpdate_deadline_ne (ev : Event) (u : FieldUpdate)
    (h : u.key ≠ "registrationDeadline") :
    (applyUpdate ev u).registrationDeadline = ev.registrationDeadline := by
  cases u <;> simp_all [applyUpdate, FieldUpdate.key]

/-- Helper: a field assignment whose key is not registrationLimit leaves the
stored limit unchanged. -/
theorem applyUpdate_limit_ne (ev : Event) (u : FieldUpdate)
    (h : u.key ≠ "registrationLimit") :
    (applyUpdate ev u).registrationLimit = ev.registrationLimit := by
  cases u <;> simp_all [applyUpdate, FieldUpdate.key]

/-- Helper: a whitelisted field assignment never touches the form lock. -/
theorem applyUpdate_formLocked_of_allowed (ev : Event) (u : FieldUpdate)
    (h : publishedAllowed.contains u.key = true) :
    (applyUpdate ev u).isFormLocked = ev.isFormLocked := by
  cases u <;> simp_all [applyUpdate, FieldUpdate.key, publishedAllowed]

/-- Helper: processing one whitelisted request field either rejects the
whole request or proceeds with the field assigned. -/
theorem publishedApply_cons_allowed (ev : Event) (v : FieldUpdate)
    (rest : List FieldUpdate)
    (hv : publishedAllowed.contains v.key = true) :
    (∃ er, publishedApply ev (v :: rest) = .error er)
    ∨ publishedApply ev (v :: rest) = publishedApply (applyUpdate ev v) rest := by
  cases v with
  | registrationDeadline d =>
    by_cases hd : d < ev.registrationDeadline
    · exact Or.inl ⟨⟨400, "Can only extend the deadline."⟩,
        by simp [publishedApply, FieldUpdate.key, publishedAllowed, hd]⟩
    · exact Or.inr (by simp [publishedApply, FieldUpdate.key, publishedAllowed, hd])
  | registrationLimit n =>
    cases hm : ev.registrationLimit with
    | none => exact Or.inr (by simp [publishedApply, FieldUpdate.key, publishedAllowed, hm])
    | some m =>
      by_cases hn : n < m
      · exact Or.inl ⟨⟨400, "Can only increase the registration limit."⟩,
          by simp [publishedApply, FieldUpdate.key, publishedAllowed, hm, hn]⟩
      · exact Or.inr (by simp [publishedApply, FieldUpdate.key, publishedAllowed, hm, hn])
  | description s => exact Or.inr (by simp [publishedApply, FieldUpdate.key, publishedAllowed])
  | statusOverride s => exact Or.inr (by simp [publishedApply, FieldUpdate.key, publishedAllowed])
  | isFormLocked b => exact absurd hv (by simp [FieldUpdate.key, publishedAllowed])
  | name s => exact absurd hv (by simp [FieldUpdate.key, publishedAllowed])
  | startDate d => exact absurd hv (by simp [FieldUpdate.key, publishedAllowed])
  | endDate d => exact absurd hv (by simp [FieldUpdate.key, publishedAllowed])
  | otherField s =>
    have hs : s ∈ publishedAllowed := by simpa [FieldUpdate.key] using hv
    exact Or.inr (by simp [publishedApply, FieldUpdate.key, hs])

/-- Helper: a request containing a field outside the whitelist is rejected
as a whole by the Published walk. -/
theorem publishedApply_error_of_illegal (updates : List FieldUpdate) (ev : Event)
    (h : ∃ u ∈ updates, publishedAllowed.contains u.key = false) :
    ∃ er, publishedApply ev updates = .error er := by
  induction updates generalizing ev with
  | nil =>
    obtain ⟨u, hu, _⟩ := h
    cases hu
  | cons v rest ih =>
    obtain ⟨u, hu, hbad⟩ := h
    by_cases hv : publishedAllowed.contains v.key = true
    · rcases publishedApply_cons_allowed ev v rest hv with her | heq
      · exact her
      · have hu2 : u ∈ rest := by
          rcases List.mem_cons.mp hu with rfl | h2
          · rw [hv] at hbad; cases hbad
          · exact h2
        rw [heq]
        exact ih (applyUpdate ev v) ⟨u, hu2, hbad⟩
    · have hv3 : v.key ∉ publishedAllowed := by
        intro hmem3
        exact hv (by simpa using hmem3)
      exact ⟨⟨400, "Cannot edit " ++ v.key ++ " once published."⟩,
        by simp [publishedApply, hv3]⟩

/-- Helper: a request narrowing the deadline is rejected as a whole by the
Published walk (request keys are distinct, as JS object keys are). -/
theorem publishedApply_error_of_deadline_narrowing
    (updates : List FieldUpdate) (ev : Event) (d : Int)
    (hnd : (updates.map FieldUpdate.key).Nodup)
    (hmem : FieldUpdate.registrationDeadline d ∈ updates)
    (hlt : d < ev.registrationDeadline) :
    ∃ er, publishedApply ev updates = .error er := by
  induction updates generalizing ev with
  | nil => cases hmem
  | cons v rest ih =>
    rcases List.mem_cons.mp hmem with rfl | hmem2
    · exact ⟨⟨400, "Can only extend the deadline."⟩,
        by simp [publishedApply, FieldUpdate.key, publishedAllowed, hlt]⟩
    · by_cases hv : publishedAllowed.contains v.key = true
      · rcases publishedApply_cons_allowed ev v rest hv with her | heq
        · exact her
        · have hkey : v.key ≠ "registrationDeadline" := by
            intro hk
            have : FieldUpdate.key (FieldUpdate.registrationDeadline d) ∈ rest.map FieldUpdate.key :=
              List.mem_map_of_mem _ hmem2
            rw [List.map_cons, List.nodup_cons] at hnd
            exact hnd.1 (by rw [hk]; simpa [FieldUpdate.key] using this)
          rw [heq]
          refine ih (applyUpdate ev v) ?_ hmem2 ?_
          · rw [List.map_cons, List.nodup_cons] at hnd
            exact hnd.2
          · rw [applyUpdate_deadline_ne ev v hkey]
            exact hlt
      · have hv3 : v.key ∉ publishedAllowed := by
          intro hmem3
          exact hv (by simpa using hmem3)
        exact ⟨⟨400, "Cannot edit " ++ v.key ++ " once published."⟩,
          by simp [publishedApply, hv3]⟩

/-- Helper: a request lowering a present registration limit is rejected as
a whole by the Published walk. -/
theorem publishedApply_error_of_limit_narrowing
    (updates : List FieldUpdate) (ev : Event) (n m : Int)
    (hnd : (updates.map FieldUpdate.key).Nodup)
    (hmem : FieldUpdate.registrationLimit n ∈ updates)
    (hsome : ev.registrationLimit = some m)
    (hlt : n < m) :
    ∃ er, publishedApply ev updates = .error er := by
  induction updates generalizing ev with
  | nil => cases hmem
  | cons v rest ih =>
    rcases List.mem_cons.mp hmem with rfl | hmem2
    · exact ⟨⟨400, "Can only increase the registration limit."⟩,
        by simp [publishedApply, FieldUpdate.key, publishedAllowed, hsome, hlt]⟩
    · by_cases hv : publishedAllowed.contains v.key = true
      · rcases publishedApply_cons_allowed ev v rest hv with her | heq
        · exact her
        · have hkey : v.key ≠ "registrationLimit" := by
            intro hk
            have : FieldUpdate.key (FieldUpdate.registrationLimit n) ∈ rest.map FieldUpdate.key :=
              List.mem_map_of_mem _ hmem2
            rw [List.map_cons, List.nodup_cons] at hnd
            exact hnd.1 (by rw [hk]; simpa [FieldUpdate.key] using this)
          rw [heq]
          refine ih (applyUpdate ev v) ?_ hmem2 ?_
          · rw [List.map_cons, List.nodup_cons] at hnd
            exact hnd.2
          · rw [applyUpdate_limit_ne ev v hkey]
            exact hsome
      · have hv3 : v.key ∉ publishedAllowed := by
          intro hmem3
          exact hv (by simpa using hmem3)
        exact ⟨⟨400, "Cannot edit " ++ v.key ++ " once published."⟩,
          by simp [publishedApply, hv3]⟩

/-- Helper: a request of whitelisted fields whose deadline and limit values
widen or keep the stored values is accepted by the Published walk. -/
theorem publishedApply_ok_of_widening
    (updates : List FieldUpdate) (ev : Event)
    (hnd : (updates.map FieldUpdate.key).Nodup)
    (hall : ∀ u ∈ updates, publishedAllowed.contains u.key = true)
    (hdw : ∀ d, FieldUpdate.registrationDeadline d ∈ updates → ev.registrationDeadline ≤ d)
    (hlw : ∀ n m, FieldUpdate.registrationLimit n ∈ updates →
      ev.registrationLimit = some m → m ≤ n) :
    ∃ ev2, publishedApply ev updates = .ok ev2 := by
  induction updates generalizing ev with
  | nil => exact ⟨ev, rfl⟩
  | cons v rest ih =>
    have hv : publishedAllowed.contains v.key = true := hall v (List.mem_cons_self v rest)
    have hnd2 : (rest.map FieldUpdate.key).Nodup := by
      rw [List.map_cons, List.nodup_cons] at hnd
      exact hnd.2
    have hvnotin : v.key ∉ rest.map FieldUpdate.key := by
      rw [List.map_cons, List.nodup_cons] at hnd
      exact hnd.1
    have hstep : publishedApply ev (v :: rest) = publishedApply (applyUpdate ev v) rest := by
      cases v with
      | registrationDeadline d =>
        have hle : ev.registrationDeadline ≤ d :=
          hdw d (List.mem_cons_self _ rest)
        simp [publishedApply, FieldUpdate.key, publishedAllowed, not_lt.mpr hle]
      | registrationLimit n =>
        cases hm : ev.registrationLimit with
        | none => simp [publishedApply, FieldUpdate.key, publishedAllowed, hm]
        | some m =>
          have hle : m ≤ n := hlw n m (List.mem_cons_self _ rest) hm
          simp [publishedApply, FieldUpdate.key, publishedAllowed, hm, not_lt.mpr hle]
      | description s => simp [publishedApply, FieldUpdate.key, publishedAllowed]
      | statusOverride s => simp [publishedApply, FieldUpdate.key, publishedAllowed]
      | isFormLocked b => exact absurd hv (by simp [FieldUpdate.key, publishedAllowed])
      | name s => exact absurd hv (by simp [FieldUpdate.key, publishedAllowed])
      | startDate d => exact absurd hv (by simp [FieldUpdate.key, publishedAllowed])
      | endDate d => exact absurd hv (by simp [FieldUpdate.key, publishedAllowed])
      | otherField s =>
        have hs : s ∈ publishedAllowed := by simpa [FieldUpdate.key] using hv
        simp [publishedApply, FieldUpdate.key, hs]
    rw [hstep]
    refine ih (applyUpdate ev v) hnd2 (fun u hu => hall u (List.mem_cons_of_mem _ hu)) ?_ ?_
    · intro d hd
      have hkey : v.key ≠ "registrationDeadline" := by
        intro hk
        exact hvnotin (by rw [hk]; simpa [FieldUpdate.key] using List.mem_map_of_mem FieldUpdate.key hd)
      rw [applyUpdate_deadline_ne ev v hkey]
      exact hdw d (List.mem_cons_of_mem _ hd)
    · intro n m hn hm
      have hkey : v.key ≠ "registrationLimit" := by
        intro hk
        exact hvnotin (by rw [hk]; simpa [FieldUpdate.key] using List.mem_map_of_mem FieldUpdate.key hn)
      rw [applyUpdate_limit_ne ev v hkey] at hm
      exact hlw n m (List.mem_cons_of_mem _ hn) hm

/-- Helper: a rejected edit persists nothing. -/
theorem persistedAfterUpdate_of_error (ev : Event) (updates : List FieldUpdate)
    (now : Int) (er : ApiErr)
    (h : updateEventHandler ev updates now = .error er) :
    persistedAfterUpdate ev updates now = ev := by
  unfold persistedAfterUpdate
  rw [h]

/-- C5: for an event in Published phase, an edit request touching any field
outside the whitelist of description, registrationDeadline,
registrationLimit and statusOverride is rejected; a deadline earlier than
the stored one or a limit below the stored one is rejected; a request
whose whitelisted fields only widen or keep the two monotone values is
accepted; and every rejection leaves the persisted event unchanged, with
none of the other requested fields applied. -/
theorem published_edit_widening_only
    (ev : Event) (updates : List FieldUpdate) (now : Int)
    (hpub : ev.effectiveStatus now = .Published) :
    ((∃ u ∈ updates, publishedAllowed.contains u.key = false) →
      ∃ er, updateEventHandler ev updates now = .error er
        ∧ persistedAfterUpdate ev updates now = ev)
    ∧ (∀ d, (updates.map FieldUpdate.key).Nodup →
        FieldUpdate.registrationDeadline d ∈ updates → d < ev.registrationDeadline →
        ∃ er, updateEventHandler ev updates now = .error er
          ∧ persistedAfterUpdate ev updates now = ev)
    ∧ (∀ n m, (updates.map FieldUpdate.key).Nodup →
        FieldUpdate.registrationLimit n ∈ updates → ev.registrationLimit = some m →
        n < m →
        ∃ er, updateEventHandler ev updates now = .error er
          ∧ persistedAfterUpdate ev updates now = ev)
    ∧ ((updates.map FieldUpdate.key).Nodup →
        (∀ u ∈ updates, publishedAllowed.contains u.key = true) →
        (∀ d, FieldUpdate.registrationDeadline d ∈ updates → ev.registrationDeadline ≤ d) →
        (∀ n m, FieldUpdate.registrationLimit n ∈ updates →
          ev.registrationLimit = some m → m ≤ n) →
        ∃ ev2, updateEventHandler ev updates now = .ok ev2) := by
  have hred : updateEventHandler ev updates now = publishedApply ev updates := by
    unfold updateEventHandler
    rw [hpub]
  refine ⟨?_, ?_, ?_, ?_⟩
  · intro h
    obtain ⟨er, her⟩ := publishedApply_error_of_illegal updates ev h
    rw [← hred] at her
    exact ⟨er, her, persistedAfterUpdate_of_error ev updates now er her⟩
  · intro d hnd hmem hlt
    obtain ⟨er, her⟩ := publishedApply_error_of_deadline_narrowing updates ev d hnd hmem hlt
    rw [← hred] at her
    exact ⟨er, her, persistedAfterUpdate_of_error ev updates now er her⟩
  · intro n m hnd hmem hsome hlt
    obtain ⟨er, her⟩ := publishedApply_error_of_limit_narrowing updates ev n m hnd hmem hsome hlt
    rw [← hred] at her
    exact ⟨er, her, persistedAfterUpdate_of_error ev updates now er her⟩
  · intro hnd hall hdw hlw
    obtain ⟨ev2, h2⟩ := publishedApply_ok_of_widening updates ev hnd hall hdw hlw
    rw [← hred] at h2
    exact ⟨ev2, h2⟩

/-- Witness for C5 at the sample Published event with deadline 50: an edit
request carrying startDate is rejected, a deadline of 40 is rejected, and a
deadline of 60 together with a new description is accepted. -/
theorem published_edit_widening_only_witness :
    (∃ er, updateEventHandler normalEv [.startDate 99] 10 = .error er
      ∧ persistedAfterUpdate normalEv [.startDate 99] 10 = normalEv)
    ∧ (∃ er, updateEventHandler normalEv [.registrationDeadline 40] 10 = .error er
      ∧ persistedAfterUpdate normalEv [.registrationDeadline 40] 10 = normalEv)
    ∧ (∃ ev2, updateEventHandler normalEv
        [.description "more", .registrationDeadline 60] 10 = .ok ev2) := by
  refine ⟨?_, ?_, ?_⟩
  · exact (published_edit_widening_only normalEv [.startDate 99] 10 rfl).1
      ⟨.startDate 99, List.mem_cons_self _ _, by decide⟩
  · exact (published_edit_widening_only normalEv [.registrationDeadline 40] 10 rfl).2.1
      40 (by decide) (List.mem_cons_self _ _) (by decide)
  · refine (published_edit_widening_only normalEv
      [.description "more", .registrationDeadline 60] 10 rfl).2.2.2
      (by decide) ?_ ?_ ?_
    · intro u hu
      rcases List.mem_cons.mp hu with rfl | hu2
      · decide
      rcases List.mem_cons.mp hu2 with rfl | hu3
      · decide
      cases hu3
    · intro d hd
      rcases List.mem_cons.mp hd with h | hd2
      · cases h
      rcases List.mem_cons.mp hd2 with h | hd3
      · injection h with h
        subst h
        decide
      cases hd3
    · intro n m hn hm
      rcases List.mem_cons.mp hn with h | hn2
      · cases h
      rcases List.mem_cons.mp hn2 with h | hn3
      · cases h
      cases hn3

/-- Invariant of the registration collection: no two stored registrations
share the same (eventId, participantId) pair. -/
def atMostOnePerPair (regs : List Registration) : Prop :=
  (regs.map (fun r => (r.eventId, r.participantId))).Nodup

/-- Helper: an insert accepted by the unique compound index preserves the
pair invariant. -/
theorem registrationCreate_preserves (regs regs2 : List Registration) (r : Registration)
    (hc : registrationCreate regs r = .ok regs2)
    (h : atMostOnePerPair regs) : atMostOnePerPair regs2 := by
  unfold registrationCreate at hc
  by_cases hany : regs.any (fun x => x.eventId == r.eventId && x.participantId == r.participantId) = true
  · rw [if_pos hany] at hc
    cases hc
  · rw [if_neg hany] at hc
    injection hc with hc
    subst hc
    unfold atMostOnePerPair at h ⊢
    rw [List.map_append, List.nodup_append]
    refine ⟨h, by simp, ?_⟩
    intro p hp hq
    simp only [List.map_cons, List.map_nil, List.mem_cons, List.not_mem_nil, or_false] at hq
    subst hq
    obtain ⟨x, hx, hxp⟩ := List.mem_map.mp hp
    apply hany
    rw [List.any_eq_true]
    refine ⟨x, hx, ?_⟩
    have h1 : x.eventId = r.eventId := congrArg Prod.fst hxp
    have h2 : x.participantId = r.participantId := congrArg Prod.snd hxp
    simp [h1, h2]

/-- Helper: a per-document update that keeps eventId and participantId
preserves the pair invariant. -/
theorem atMostOnePerPair_map (regs : List Registration) (f : Registration → Registration)
    (hf : ∀ r, (f r).eventId = r.eventId ∧ (f r).participantId = r.participantId)
    (h : atMostOnePerPair regs) : atMostOnePerPair (regs.map f) := by
  unfold atMostOnePerPair at h ⊢
  rw [List.map_map]
  have heq : ((fun r : Registration => (r.eventId, r.participantId)) ∘ f)
      = (fun r : Registration => (r.eventId, r.participantId)) := by
    funext r
    simp [(hf r).1, (hf r).2]
  rw [heq]
  exact h

/-- Helper: a successful normal registration extends the collection through
the indexed insert. -/
theorem registerHandler_ok_regs (ev : Event) (pt : ParticipantType) (pid : Nat)
    (fd : List (String × String)) (regs : List Registration) (now : Int)
    (t : String) (rid : Nat) (out : Event × List Registration × String)
    (h : registerHandler ev pt pid fd regs now t rid = .ok out) :
    ∃ r, r.eventId = ev.id ∧ r.participantId = pid
      ∧ registrationCreate regs r = .ok out.2.1 := by
  unfold registerHandler at h
  split_ifs at h
  all_goals repeat' (first | (exact Except.noConfusion h) | (split at h))
  all_goals (
    rename_i regs2 hc
    injection h with h
    subst h
    exact ⟨_, rfl, rfl, hc⟩)

/-- Helper: a successful merchandise order extends the collection through
the indexed insert. -/
theorem orderHandler_ok_regs (ev : Event) (pt : ParticipantType) (pid : Nat)
    (vid : Option Nat) (qty : Option Int) (regs : List Registration) (now : Int)
    (t : String) (rid : Nat) (out : Event × List Registration × Option String)
    (h : orderHandler ev pt pid vid qty regs now t rid = .ok out) :
    ∃ r, r.eventId = ev.id ∧ r.participantId = pid
      ∧ registrationCreate regs r = .ok out.2.1 := by
  unfold orderHandler at h
  repeat' (first | (exact Except.noConfusion h) | (split at h))
  all_goals (
    rename_i regs2 hc
    injection h with h
    subst h
    exact ⟨_, rfl, rfl, hc⟩)

/-- Helper: a successful approval rewrites the collection per document,
keeping each (eventId, participantId). -/
theorem approveHandler_ok_regs (ev : Event) (regs : List Registration) (regId : Nat)
    (t : String) (out : Event × List Registration × String)
    (h : approveHandler ev regs regId t = .ok out) :
    ∃ f : Registration → Registration,
      (∀ r, (f r).eventId = r.eventId ∧ (f r).participantId = r.participantId)
      ∧ out.2.1 = regs.map f := by
  unfold approveHandler at h
  repeat' (first | (exact Except.noConfusion h) | (split at h))
  all_goals (
    injection h with h
    subst h
    exact ⟨_, fun r => by constructor <;> (split <;> rfl), rfl⟩)

/-- Helper: a successful rejection rewrites the collection per document,
keeping each (eventId, participantId). -/
theorem rejectHandler_ok_regs (ev : Event) (regs : List Registration) (regId : Nat)
    (out : List Registration)
    (h : rejectHandler ev regs regId = .ok out) :
    ∃ f : Registration → Registration,
      (∀ r, (f r).eventId = r.eventId ∧ (f r).participantId = r.participantId)
      ∧ out = regs.map f := by
  unfold rejectHandler at h
  repeat' (first | (exact Except.noConfusion h) | (split at h))
  all_goals (
    injection h with h
    subst h
    exact ⟨_, fun r => by constructor <;> (split <;> rfl), rfl⟩)

/-- Helper: a successful scan either changes nothing or rewrites the
collection per document, keeping each (eventId, participantId). -/
theorem scanHandler_ok_regs (ev : Event) (regs : List Registration) (tid : String)
    (now : Int) (out : List Registration × ScanOutcome)
    (h : scanHandler ev regs tid now = .ok out) :
    ∃ f : Registration → Registration,
      (∀ r, (f r).eventId = r.eventId ∧ (f r).participantId = r.participantId)
      ∧ out.1 = regs.map f := by
  unfold scanHandler at h
  repeat' (first | (exact Except.noConfusion h) | (split at h))
  all_goals (injection h with h; subst h)
  · exact ⟨id, fun r => ⟨rfl, rfl⟩, by simp⟩
  · exact ⟨_, fun r => by constructor <;> (split <;> rfl), rfl⟩

/-- Helper: a successful manual override rewrites the collection per
document, keeping each (eventId, participantId). -/
theorem manualOverrideHandler_ok_regs (ev : Event) (regs : List Registration)
    (regId : Nat) (a : Bool) (reason : String) (actorId : Nat) (now : Int)
    (out : List Registration)
    (h : manualOverrideHandler ev regs regId a reason actorId now = .ok out) :
    ∃ f : Registration → Registration,
      (∀ r, (f r).eventId = r.eventId ∧ (f r).participantId = r.participantId)
      ∧ out = regs.map f := by
  unfold manualOverrideHandler at h
  repeat' (first | (exact Except.noConfusion h) | (split at h))
  all_goals (
    injection h with h
    subst h
    exact ⟨_, fun r => by constructor <;> (split <;> rfl), rfl⟩)

/-- Helper: every call preserves the pair invariant. -/
theorem step_preserves_pair_unique (s : SysState) (op : Op)
    (h : atMostOnePerPair s.regs) : atMostOnePerPair (step s op).regs := by
  cases op with
  | editEvent updates now =>
    simp only [step]
    cases hh : updateEventHandler s.ev updates now <;> exact h
  | register pid pt fd now t rid =>
    simp only [step]
    cases hh : registerHandler s.ev pt pid fd s.regs now t rid with
    | error e => exact h
    | ok out =>
      obtain ⟨e2, rs2, t2⟩ := out
      obtain ⟨r, hre, hrp, hc⟩ := registerHandler_ok_regs _ _ _ _ _ _ _ _ _ hh
      exact registrationCreate_preserves _ _ _ hc h
  | placeOrder pid pt vid qty now t rid =>
    simp only [step]
    cases hh : orderHandler s.ev pt pid vid qty s.regs now t rid with
    | error e => exact h
    | ok out =>
      obtain ⟨e2, rs2, t2⟩ := out
      obtain ⟨r, hre, hrp, hc⟩ := orderHandler_ok_regs _ _ _ _ _ _ _ _ _ _ hh
      exact registrationCreate_preserves _ _ _ hc h
  | approveOrder regId t =>
    simp only [step]
    cases hh : approveHandler s.ev s.regs regId t with
    | error e => exact h
    | ok out =>
      obtain ⟨e2, rs2, t2⟩ := out
      obtain ⟨f, hf, hout⟩ := approveHandler_ok_regs _ _ _ _ _ hh
      simp only at hout
      rw [hout]
      exact atMostOnePerPair_map _ _ hf h
  | rejectOrder regId =>
    simp only [step]
    cases hh : rejectHandler s.ev s.regs regId with
    | error e => exact h
    | ok out =>
      obtain ⟨f, hf, hout⟩ := rejectHandler_ok_regs _ _ _ _ hh
      rw [hout]
      exact atMostOnePerPair_map _ _ hf h
  | scanTicket tid now =>
    simp only [step]
    cases hh : scanHandler s.ev s.regs tid now with
    | error e => exact h
    | ok out =>
      obtain ⟨rs2, oc⟩ := out
      obtain ⟨f, hf, hout⟩ := scanHandler_ok_regs _ _ _ _ _ hh
      simp only at hout
      rw [hout]
      exact atMostOnePerPair_map _ _ hf h
  | overrideAttendance regId a reason actor now =>
    simp only [step]
    cases hh : manualOverrideHandler s.ev s.regs regId a reason actor now with
    | error e => exact h
    | ok out =>
      obtain ⟨f, hf, hout⟩ := manualOverrideHandler_ok_regs _ _ _ _ _ _ _ _ hh
      rw [hout]
      exact atMostOnePerPair_map _ _ hf h

/-- C2: over every sequence of calls the registration collection never
holds two registrations for the same (event, participant) pair; a second
registration call or order call by a participant already holding one for
the event is rejected, with the duplicate message when the earlier guards
pass; and the storage insert itself, carrying the unique compound index on
(eventId, participantId), rejects a duplicate pair independently of the
prior read the routes perform. -/
theorem registration_pair_uniqueness :
    (∀ (s : SysState) (ops : List Op), atMostOnePerPair s.regs →
      atMostOnePerPair (runOps s ops).regs)
    ∧ (∀ (ev : Event) (pt : ParticipantType) (pid : Nat)
        (fd : List (String × String)) (regs : List Registration) (now : Int)
        (t : String) (rid : Nat),
        regs.any (fun r => r.eventId == ev.id && r.participantId == pid) = true →
        ∃ er, registerHandler ev pt pid fd regs now t rid = .error er)
    ∧ (∀ (ev : Event) (pt : ParticipantType) (pid : Nat) (vid : Option Nat)
        (qty : Option Int) (regs : List Registration) (now : Int)
        (t : String) (rid : Nat),
        regs.any (fun r => r.eventId == ev.id && r.participantId == pid) = true →
        ∃ er, orderHandler ev pt pid vid qty regs now t rid = .error er)
    ∧ (∀ (regs : List Registration) (r : Registration),
        regs.any (fun x => x.eventId == r.eventId && x.participantId == r.participantId) = true →
        registrationCreate regs r =
          .error ⟨500, "E11000 duplicate key error: eventId, participantId"⟩)
    ∧ (∀ (ev : Event) (pt : ParticipantType) (pid : Nat)
        (fd : List (String × String)) (regs : List Registration) (now : Int)
        (t : String) (rid : Nat),
        ev.etype = .normal →
        (ev.effectiveStatus now = .Published ∨ ev.effectiveStatus now = .Ongoing) →
        now ≤ ev.registrationDeadline →
        (ev.eligibility = .iiit → pt = .iiit) →
        (ev.eligibility = .noniiit → pt = .noniiit) →
        capacityReached ev.registrationLimit (eventRegCount regs ev.id) = false →
        regs.any (fun r => r.eventId == ev.id && r.participantId == pid) = true →
        registerHandler ev pt pid fd regs now t rid =
          .error ⟨400, "Already registered."⟩) := by
  refine ⟨?_, ?_, ?_, ?_, ?_⟩
  · intro s ops h
    induction ops generalizing s with
    | nil => exact h
    | cons op rest ih => exact ih (step s op) (step_preserves_pair_unique s op h)
  · intro ev pt pid fd regs now t rid hdup
    cases hh : registerHandler ev pt pid fd regs now t rid with
    | error e => exact ⟨e, rfl⟩
    | ok out =>
      exfalso
      obtain ⟨r, hre, hrp, hc⟩ := registerHandler_ok_regs _ _ _ _ _ _ _ _ _ hh
      unfold registrationCreate at hc
      simp only [hre, hrp] at hc
      rw [if_pos hdup] at hc
      cases hc
  · intro ev pt pid vid qty regs now t rid hdup
    cases hh : orderHandler ev pt pid vid qty regs now t rid with
    | error e => exact ⟨e, rfl⟩
    | ok out =>
      exfalso
      obtain ⟨r, hre, hrp, hc⟩ := orderHandler_ok_regs _ _ _ _ _ _ _ _ _ _ hh
      unfold registrationCreate at hc
      simp only [hre, hrp] at hc
      rw [if_pos hdup] at hc
      cases hc
  · intro regs r hdup
    unfold registrationCreate
    rw [if_pos hdup]
  · intro ev pt pid fd regs now t rid hty hst hdl he1 he2 hcap hdup
    unfold registerHandler
    rw [if_neg (by simp [hty]), if_neg (by simp [hst]), if_neg (by omega),
      if_neg (by rintro ⟨h1, h2⟩; exact h2 (he1 h1)),
      if_neg (by rintro ⟨h1, h2⟩; exact h2 (he2 h1)),
      if_neg (by simp [hcap]), if_pos hdup]

/-- Witness for C2: the pair invariant holds after a concrete call sequence
from the empty collection, and a repeated registration by participant 99
against the sample event is rejected with the duplicate message. -/
theorem registration_pair_uniqueness_witness :
    atMostOnePerPair (runOps ⟨normalEv, []⟩
      [.register 99 .iiit [] 10 "TKT-99" 50, .register 99 .iiit [] 11 "TKT-X" 51]).regs
    ∧ registerHandler normalEv .iiit 99 [] [{ regOfP99 with eventId := 1 }] 10 "TKT-X" 51 =
        .error ⟨400, "Already registered."⟩ := by
  constructor
  · exact registration_pair_uniqueness.1 ⟨normalEv, []⟩
      [.register 99 .iiit [] 10 "TKT-99" 50, .register 99 .iiit [] 11 "TKT-X" 51]
      (by simp [atMostOnePerPair])
  · exact registration_pair_uniqueness.2.2.2.2 normalEv .iiit 99 []
      [{ regOfP99 with eventId := 1 }] 10 "TKT-X" 51
      rfl (Or.inl rfl) (by decide) (fun h => by cases h) (fun h => by cases h)
      (by decide) (by decide)

/-- Helper: the Published whitelist walk never changes the form lock. -/
theorem publishedApply_preserves_formLocked (updates : List FieldUpdate)
    (ev ev2 : Event)
    (h : publishedApply ev updates = .ok ev2) : ev2.isFormLocked = ev.isFormLocked := by
  induction updates generalizing ev with
  | nil =>
    injection h with h
    subst h
    rfl
  | cons v rest ih =>
    by_cases hv : publishedAllowed.contains v.key = true
    · rcases publishedApply_cons_allowed ev v rest hv with ⟨er, her⟩ | heq
      · rw [her] at h
        exact Except.noConfusion h
      · rw [heq] at h
        rw [ih (applyUpdate ev v) h]
        exact applyUpdate_formLocked_of_allowed ev v hv
    · have hv3 : v.key ∉ publishedAllowed := by
        intro hmem3
        exact hv (by simpa using hmem3)
      have her : publishedApply ev (v :: rest) =
          .error ⟨400, "Cannot edit " ++ v.key ++ " once published."⟩ := by
        simp [publishedApply, hv3]
      rw [her] at h
      exact Except.noConfusion h

/-- Helper: an accepted edit of an event whose effective status is not
Draft never changes the form lock: the Published walk cannot touch it, the
Ongoing and Completed branches only set statusOverride, and the Closed fall
through changes nothing. -/
theorem updateEventHandler_preserves_formLocked (ev : Event)
    (updates : List FieldUpdate) (now : Int) (ev2 : Event)
    (hnd : ev.effectiveStatus now ≠ .Draft)
    (h : updateEventHandler ev updates now = .ok ev2) :
    ev2.isFormLocked = ev.isFormLocked := by
  unfold updateEventHandler at h
  cases hst : ev.effectiveStatus now with
  | Draft => exact absurd hst hnd
  | Published =>
    rw [hst] at h
    exact publishedApply_preserves_formLocked updates ev ev2 h
  | Ongoing =>
    rw [hst] at h
    cases updates with
    | nil => exact Except.noConfusion h
    | cons u rest =>
      cases rest with
      | cons u2 rest2 => cases u <;> exact Except.noConfusion h
      | nil =>
        cases u <;> first
          | exact Except.noConfusion h
          | (injection h with h; subst h; rfl)
  | Completed =>
    rw [hst] at h
    cases updates with
    | nil => exact Except.noConfusion h
    | cons u rest =>
      cases rest with
      | cons u2 rest2 => cases u <;> exact Except.noConfusion h
      | nil =>
        cases u <;> first
          | exact Except.noConfusion h
          | (injection h with h; subst h; rfl)
  | Closed =>
    rw [hst] at h
    injection h with h
    subst h
    rfl

/-- Helper: a successful normal registration always leaves the saved event
form locked. -/
theorem registerHandler_ok_formLocked (ev : Event) (pt : ParticipantType)
    (pid : Nat) (fd : List (String × String)) (regs : List Registration)
    (now : Int) (t : String) (rid : Nat) (out : Event × List Registration × String)
    (h : registerHandler ev pt pid fd regs now t rid = .ok out) :
    out.1.isFormLocked = true := by
  unfold registerHandler at h
  split_ifs at h
  all_goals repeat' (first | (exact Except.noConfusion h) | (split at h))
  all_goals (
    injection h with h
    subst h
    first
    | rfl
    | assumption)

/-- Helper: a merchandise order never changes the form lock of the saved
event. -/
theorem orderHandler_ok_formLocked (ev : Event) (pt : ParticipantType) (pid : Nat)
    (vid : Option Nat) (qty : Option Int) (regs : List Registration) (now : Int)
    (t : String) (rid : Nat) (out : Event × List Registration × Option String)
    (h : orderHandler ev pt pid vid qty regs now t rid = .ok out) :
    out.1.isFormLocked = ev.isFormLocked := by
  unfold orderHandler at h
  repeat' (first | (exact Except.noConfusion h) | (split at h))
  all_goals (
    injection h with h
    subst h
    rfl)

/-- Helper: an order approval never changes the form lock of the saved
event. -/
theorem approveHandler_ok_formLocked (ev : Event) (regs : List Registration)
    (regId : Nat) (t : String) (out : Event × List Registration × String)
    (h : approveHandler ev regs regId t = .ok out) :
    out.1.isFormLocked = ev.isFormLocked := by
  unfold approveHandler at h
  repeat' (first | (exact Except.noConfusion h) | (split at h))
  all_goals (
    injection h with h
    subst h
    rfl)

/-- C8 counterexample: the form lock set by the first registration against
the sample Published normal event is not permanent.  The owner can set
statusOverride back to Draft through the Published edit whitelist, and a
Draft-phase edit assigns any request field through Object.assign, so a
subsequent edit clears the lock. -/
theorem form_lock_not_permanent_counterexample :
    (step ⟨normalEv, []⟩ (.register 1 .iiit [] 10 "TKT-1" 1)).ev.isFormLocked = true
    ∧ (runOps ⟨normalEv, []⟩
        [.register 1 .iiit [] 10 "TKT-1" 1,
         .editEvent [.statusOverride .Draft] 10,
         .editEvent [.isFormLocked false] 10]).ev.isFormLocked = false := by
  exact ⟨rfl, rfl⟩

/-- C8 amended: a successful registration against a normal event always
leaves the event form locked, and the lock survives every subsequent
operation except an edit performed while the effective status is Draft,
which is reachable because statusOverride may be set back to Draft; such a
Draft edit may assign any field, including the lock. -/
theorem form_lock_permanent_outside_draft :
    (∀ (ev : Event) (pt : ParticipantType) (pid : Nat) (fd : List (String × String))
       (regs : List Registration) (now : Int) (t : String) (rid : Nat)
       (out : Event × List Registration × String),
      registerHandler ev pt pid fd regs now t rid = .ok out →
      out.1.isFormLocked = true)
    ∧ (∀ (s : SysState) (op : Op),
        s.ev.isFormLocked = true →
        (∀ updates now2, op = .editEvent updates now2 →
          s.ev.effectiveStatus now2 ≠ .Draft) →
        (step s op).ev.isFormLocked = true) := by
  constructor
  · intro ev pt pid fd regs now t rid out h
    exact registerHandler_ok_formLocked ev pt pid fd regs now t rid out h
  · intro s op h hop
    cases op with
    | editEvent updates now2 =>
      simp only [step]
      cases hh : updateEventHandler s.ev updates now2 with
      | error e => exact h
      | ok e2 =>
        rw [updateEventHandler_preserves_formLocked s.ev updates now2 e2
          (hop updates now2 rfl) hh]
        exact h
    | register pid pt fd now2 t rid =>
      simp only [step]
      cases hh : registerHandler s.ev pt pid fd s.regs now2 t rid with
      | error e => exact h
      | ok out =>
        obtain ⟨e2, rs2, t2⟩ := out
        exact registerHandler_ok_formLocked _ _ _ _ _ _ _ _ _ hh
    | placeOrder pid pt vid qty now2 t rid =>
      simp only [step]
      cases hh : orderHandler s.ev pt pid vid qty s.regs now2 t rid with
      | error e => exact h
      | ok out =>
        obtain ⟨e2, rs2, t2⟩ := out
        rw [orderHandler_ok_formLocked _ _ _ _ _ _ _ _ _ _ hh]
        exact h
    | approveOrder regId t =>
      simp only [step]
      cases hh : approveHandler s.ev s.regs regId t with
      | error e => exact h
      | ok out =>
        obtain ⟨e2, rs2, t2⟩ := out
        rw [approveHandler_ok_formLocked _ _ _ _ _ hh]
        exact h
    | rejectOrder regId =>
      simp only [step]
      cases hh : rejectHandler s.ev s.regs regId with
      | error e => exact h
      | ok rs => exact h
    | scanTicket tid now2 =>
      simp only [step]
      cases hh : scanHandler s.ev s.regs tid now2 with
      | error e => exact h
      | ok out => exact h
    | overrideAttendance regId a reason actor now2 =>
      simp only [step]
      cases hh : manualOverrideHandler s.ev s.regs regId a reason actor now2 with
      | error e => exact h
      | ok rs => exact h

/-- Witness for the C8 amended theorem: a scan against a locked sample
event leaves the lock in place. -/
theorem form_lock_permanent_outside_draft_witness :
    (step ⟨{ normalEv with isFormLocked := true }, []⟩
      (.scanTicket "TKT-1" 50)).ev.isFormLocked = true :=
  form_lock_permanent_outside_draft.2 ⟨{ normalEv with isFormLocked := true }, []⟩
    (.scanTicket "TKT-1" 50) rfl (fun _ _ hx => by cases hx)

end EventSys
